import Mathlib

/-!
Verification development for the pinsdaemon job orchestration core
(`app/job_manager.py`, `app/main.py`).

The Python source is shallowly embedded: pure string manipulation becomes
Lean functions over `List Char`, the per-job mutable `Job` object becomes a
record threaded through explicit state-passing functions, and the two
driving coroutines (`JobManager._run_process` and
`JobManager._monitor_detached_unit`) become functions from the externally
observed process behaviour (the raw output lines, the exit code, the polled
unit state, the `systemctl show` output) to the final `Job` record.
Cooperative-scheduling interleavings are modelled by small-step transition
relations whose atomic actions are the source's code blocks between real
suspension points.

All definitions are executable and kernel-reducible (structural recursion
only), so every concrete claim instance can be settled by `decide`/`rfl`.
-/

namespace PinsDaemon

/-! ### Python string primitives

`str.strip`, `str.split(sep)`, `str.splitlines`, `int(str)` and substring
containment, modelled over `List Char`.  Whitespace is modelled as the ASCII
whitespace characters Python's `str.strip` removes (space, tab, newline,
carriage return, vertical tab, form feed); non-ASCII Unicode whitespace does
not occur in the data these functions are applied to. -/

/-- The characters removed by Python's `str.strip()` (ASCII fragment). -/
def isPySpace (c : Char) : Bool :=
  c = ' ' || c = '\t' || c = '\n' || c = '\r' || c.toNat = 11 || c.toNat = 12

/-- `str.strip()` on a character list: drop whitespace from both ends. -/
def pyStripList (l : List Char) : List Char :=
  ((l.dropWhile isPySpace).reverse.dropWhile isPySpace).reverse

/-- Python `s.strip()`. -/
def pyStrip (s : String) : String := String.mk (pyStripList s.data)

/-- Modelled from the spec: "trim trailing whitespace" — a right-only trim
(`str.rstrip()`), used to compare the spec's wording against the source's
`str.strip()`. -/
def pyRstrip (s : String) : String :=
  String.mk (s.data.reverse.dropWhile isPySpace).reverse

/-- Split a character list at the first occurrence of the (non-empty)
separator `sep`: returns `some (before, after)` when `sep` occurs, `none`
otherwise.  This is the primitive underlying Python's `sep in s` test and
`s.split(sep)`. -/
def splitFirst? (sep : List Char) : List Char → Option (List Char × List Char)
  | [] => none
  | c :: rest =>
    if List.isPrefixOf sep (c :: rest) then
      some ([], List.drop sep.length (c :: rest))
    else
      match splitFirst? sep rest with
      | some (pre, post) => some (c :: pre, post)
      | none => none

/-- Python `sub in s` for a non-empty `sub`. -/
def pyContains (s sub : String) : Bool := (splitFirst? sub.data s.data).isSome

/-- Split a character list on every occurrence of the single character
`sep` (Python `s.split(sep)` for a one-character separator). -/
def splitChar (sep : Char) : List Char → List (List Char)
  | [] => [[]]
  | c :: rest =>
    if c = sep then [] :: splitChar sep rest
    else
      match splitChar sep rest with
      | [] => [[c]]
      | h :: t => (c :: h) :: t

/-- Python `s.splitlines()` as applied in the source: the argument has
always been passed through `strip()` first, so it carries no trailing line
break, and the line separator occurring in the `systemctl` output being
parsed is `'\n'`. -/
def pySplitlines (s : String) : List String :=
  match s.data with
  | [] => []
  | _ :: _ => (splitChar '\n' s.data).map (fun l => String.mk l)

/-- Decimal digit accumulator for `pyToInt`. -/
def digitsToNatAux (acc : Nat) : List Char → Option Nat
  | [] => some acc
  | c :: rest =>
    if c.isDigit then digitsToNatAux (10 * acc + (c.toNat - 48)) rest
    else none

/-- A non-empty all-digit character list, as a natural number. -/
def digitsToNat? (l : List Char) : Option Nat :=
  match l with
  | [] => none
  | _ :: _ => digitsToNatAux 0 l

/-- Python `int(s)`: strip whitespace, optional sign, non-empty run of
decimal digits; `none` models the `ValueError` branch.  (Underscore digit
separators and non-ASCII digits, which Python also accepts, do not occur in
the `systemctl` output being parsed and are not modelled.) -/
def pyToInt (s : String) : Option Int :=
  match pyStripList s.data with
  | '-' :: ds => (digitsToNat? ds).map (fun n => -(n : Int))
  | '+' :: ds => (digitsToNat? ds).map (fun n => (n : Int))
  | ds => (digitsToNat? ds).map (fun n => (n : Int))

/-- Python `" ".join(command)` (used by `JobManager.start_job`). -/
def joinSpace : List String → String
  | [] => ""
  | [s] => s
  | s :: rest => s ++ " " ++ joinSpace rest

/-! ### Data model: `JobStatus` and `Job`

From `job_manager.py` lines 8–39.  `finished_at`/`created_at` timestamps
are modelled as `Nat` instants supplied by the caller (`time.time()`
becomes an explicit `now` parameter).  Each `asyncio.Queue` listener is
modelled as the list of values put into it so far; `None`, the terminal
sentinel, becomes `Option.none`. -/

inductive JobStatus where
  | started
  | running
  | success
  | failed
deriving DecidableEq, Repr

structure Job where
  id : String
  command : String
  status : JobStatus := JobStatus.started
  created_at : Nat := 0
  finished_at : Option Nat := none
  exit_code : Option Int := none
  logs : List String := []
  listeners : List (List (Option String)) := []
deriving DecidableEq, Repr

/-- `Job.add_log` (lines 26–30): append the line to `logs` and put it on
every listener queue.  `asyncio.Queue.put` on an unbounded queue completes
without suspending, so the whole method runs atomically within the calling
task. -/
def addLog (j : Job) (line : String) : Job :=
  { j with
    logs := j.logs ++ [line]
    listeners := j.listeners.map (fun q => q ++ [some line]) }

/-- One raw stream line as handled by both `_run_process` (lines 174–181)
and `read_journal` (lines 67–74): decode with `errors='replace'` (the
decoded text is the input here), `strip()`, and `add_log` only when the
result is non-empty. -/
def processStreamLine (j : Job) (raw : String) : Job :=
  let decoded := pyStrip raw
  if decoded = "" then j else addLog j decoded

/-! ### Detached Unit Monitor (`_monitor_detached_unit`, lines 56–155) -/

/-- The textual completion marker the fallback rule scans for (line 147). -/
def successMarker : String := "System upgrade completed successfully."

/-- Parsing of the `systemctl show -p ExecMainStatus,Result --value` output
(lines 113–135).  A failure to run the query yields `stdout = b""`, which
is fed through the same parse; the parse itself mirrors:
`exit_code = int(lines[0]) if lines else 0`, `result = lines[1]` when a
second line exists, else `"unknown"`; any `int` failure gives
`(-1, "error")`. -/
def parseShowOutput (stdout : String) : Int × String :=
  match pySplitlines (pyStrip stdout) with
  | [] => (0, "unknown")
  | l0 :: rest =>
    match pyToInt l0 with
    | none => ((-1 : Int), "error")
    | some c =>
      match rest with
      | [] => (c, "unknown")
      | r1 :: _ => (c, r1)

/-- The verdict computation (lines 140–152) given the recorded final poll
state, the parsed execution result code and outcome descriptor, and the
accumulated logs; returns the final `is_success` flag (as the status to
store) together with the final exit code. -/
def monitorVerdict (final_status : String) (exit_code : Int) (result : String)
    (logs : List String) : JobStatus × Int :=
  let is_success : Bool :=
    (final_status == "inactive") && (result == "success") && (exit_code == 0)
  let step2 : Bool × Int :=
    if !is_success && (result == "unknown") then
      if logs.any (fun log => pyContains log successMarker) then (true, (0 : Int))
      else (is_success, exit_code)
    else (is_success, exit_code)
  (if step2.1 then JobStatus.success else JobStatus.failed, step2.2)

/-- The monitor's finalization block (lines 111–155), which runs without an
intervening suspension point from the `job.exit_code` store to the
`job.status` store: parse the show output, store exit code and finish
timestamp, compute the verdict (possibly forcing exit code 0), store the
status, and put the terminal sentinel on every listener queue. -/
def monitorFinalizeJob (j : Job) (final_status : String) (showOutput : String)
    (now : Nat) : Job :=
  let p := parseShowOutput showOutput
  let v := monitorVerdict final_status p.1 p.2 j.logs
  { j with
    exit_code := some v.2
    finished_at := some now
    status := v.1
    listeners := j.listeners.map (fun q => q ++ [none]) }

/-- `_monitor_detached_unit` as a whole, given the raw lines the journal
tail produced, the poll state that ended the loop (`"inactive"` or
`"failed"`), and the show-query output.  Line 57 invokes
`job.add_log(f"Monitoring detached unit: {unit_name}")` WITHOUT `await`:
the coroutine object is created and discarded, never executed, so that call
has no effect on the job — `unit_name` is consequently unused here. -/
def monitorDetachedUnit (j : Job) (_unit_name : String) (journalRaw : List String)
    (final_status : String) (showOutput : String) (now : Nat) : Job :=
  monitorFinalizeJob (journalRaw.foldl processStreamLine j) final_status showOutput now

/-! ### Job Executor (`_run_process`, lines 157–214) -/

/-- The detachment marker scanned for on line 183. -/
def detachMarker : String := "Running as unit:"

/-- `decoded_line.split("Running as unit:")[1]` for a line in which the
marker occurs: the segment strictly between the first occurrence and the
following occurrence (or the end). -/
def extractAfter (after : List Char) : List Char :=
  match splitFirst? detachMarker.data after with
  | some (pre, _) => pre
  | none => after

/-- Lines 183–187 for one decoded line: when the marker occurs, the new
`detached_unit` value `parts[1].strip()`; `none` when the marker is absent. -/
def extractUnit (decoded : String) : Option String :=
  match splitFirst? detachMarker.data decoded.data with
  | some (_, after) => some (String.mk (pyStripList (extractAfter after)))
  | none => none

/-- The detachment-scan update of `detached_unit` for one retained line:
overwrite on a marker line (last match wins), keep otherwise. -/
def scanLine (du : Option String) (decoded : String) : Option String :=
  match extractUnit decoded with
  | some u => some u
  | none => du

/-- One iteration of the read loop (lines 174–187) acting on the pair
(job, detached_unit). -/
def execStep (s : Job × Option String) (raw : String) : Job × Option String :=
  let decoded := pyStrip raw
  if decoded = "" then s
  else (addLog s.1 decoded, scanLine s.2 decoded)

/-- Line 162: `job.status = JobStatus.RUNNING`. -/
def runningJob (j : Job) : Job := { j with status := JobStatus.running }

/-- Direct finalization (lines 196–202): one atomic block storing exit
code, finish timestamp, the success/failure status, and the sentinel. -/
def directFinalizeJob (j : Job) (code : Int) (now : Nat) : Job :=
  { j with
    exit_code := some code
    finished_at := some now
    status := if code = 0 then JobStatus.success else JobStatus.failed
    listeners := j.listeners.map (fun q => q ++ [none]) }

/-- The `except` handler (lines 204–214): append the single synthetic
`"Internal Error: repr(e)"` line, then store exit code `-1`, status
Failed, the finish timestamp, and the sentinel. -/
def errorFinalizeJob (j : Job) (msg : String) (now : Nat) : Job :=
  let j2 := addLog j ("Internal Error: " ++ msg)
  { j2 with
    exit_code := some (-1 : Int)
    status := JobStatus.failed
    finished_at := some now
    listeners := j2.listeners.map (fun q => q ++ [none]) }

/-- The externally observed behaviour of the spawned process: either the
stream ended and `wait()` returned `returncode`, or spawning/reading raised
an exception (whose `repr` is `excRepr`) after the given lines had already
been read. -/
inductive ProcOutcome where
  | exited (rawLines : List String) (returncode : Int)
  | raised (rawLinesBefore : List String) (excRepr : String)
deriving DecidableEq, Repr

/-- What `_run_process` did with the job: handed it off to
`_monitor_detached_unit` (line 193) with the given unit name, or finalized
it directly. -/
inductive ExecResult where
  | handoff (j : Job) (unit : String)
  | done (j : Job)
deriving DecidableEq, Repr

/-- `_run_process` (lines 157–214) up to the monitor handoff point:
transition to Running, fold the read loop over the raw lines, then either
hand off (`returncode == 0 and detached_unit` — Python truthiness, so the
empty string does not hand off) or finalize directly; an exception
finalizes through the `except` handler. -/
def runProcessExec (j0 : Job) (out : ProcOutcome) (now : Nat) : ExecResult :=
  match out with
  | ProcOutcome.exited raws code =>
    let p := raws.foldl execStep (runningJob j0, none)
    (match p.2 with
     | some u =>
       if code = 0 ∧ u ≠ "" then ExecResult.handoff p.1 u
       else ExecResult.done (directFinalizeJob p.1 code now)
     | none => ExecResult.done (directFinalizeJob p.1 code now))
  | ProcOutcome.raised raws msg =>
    let p := raws.foldl execStep (runningJob j0, none)
    ExecResult.done (errorFinalizeJob p.1 msg now)

/-- Discriminator for the handoff branch. -/
def isHandoff : ExecResult → Bool
  | ExecResult.handoff _ _ => true
  | ExecResult.done _ => false

/-- The retained (decoded, stripped, non-empty) lines of a raw line list. -/
def retainedLines : List String → List String
  | [] => []
  | raw :: rest =>
    let d := pyStrip raw
    if d = "" then retainedLines rest else d :: retainedLines rest

/-- Specification-side description of the recorded detached unit: the
candidate extracted from the last retained line in which the marker
occurs. -/
def specDu (raws : List String) : Option String :=
  ((retainedLines raws).filterMap extractUnit).getLast?

/-! ### Job Registry (`JobManager`, lines 41–54 and 216–217) -/

/-- `JobManager.start_job`: `if not job_id` replaces `None` and the empty
string by a fresh UUID; a fresh `Job` record is stored under the id,
overwriting any existing entry.  The function is total — the source has no
raise path.  `freshUuid` stands for `str(uuid.uuid4())` (never empty), and
`now` for `time.time()`. -/
def startJob (jobs : String → Option Job) (command : List String)
    (jobIdArg : Option String) (freshUuid : String) (now : Nat) :
    (String → Option Job) × String :=
  let job_id :=
    match jobIdArg with
    | none => freshUuid
    | some s => if s = "" then freshUuid else s
  let job : Job := { id := job_id, command := joinSpace command, created_at := now }
  (fun k => if k = job_id then some job else jobs k, job_id)

/-- `JobManager.get_job`: dictionary lookup. -/
def getJob (jobs : String → Option Job) (job_id : String) : Option Job :=
  jobs job_id

/-! ### Job lifecycle transition system (for the status/`finished_at` invariant)

One driving task per job record, as the deployed system guarantees: every
`main.py` call site invokes `start_job(cmd)` without an explicit id, so each
`Job` record is driven by exactly the one executor task created for it
(spec §3/§5 single-writer ownership).  A state is what any other task can
observe at a suspension point; each `Step` is one of the source's atomic
blocks between suspension points. -/

/-- Control position of the driving task. -/
inductive Phase where
  | created
  | execRunning
  | monitoring
  | finishedPh
deriving DecidableEq, Repr

/-- Observable state: the driving task's control position plus the job
record. -/
structure TState where
  phase : Phase
  job : Job
deriving DecidableEq, Repr

/-- The atomic mutation blocks of `_run_process` / `_monitor_detached_unit`
as a small-step relation:
line 162 (`setRunning`), one retained stream line (`execLine`), direct
finalization lines 196–202 (`execFinalize`), the `except` handler lines
204–214 (`execError`), the handoff call at line 193 (`handoffStep`, which
mutates nothing), one journal line (`journalLine`), and the monitor's
finalization block lines 111–155 (`monitorFinalize`). -/
inductive Step : TState → TState → Prop where
  | setRunning (j : Job) :
      Step ⟨Phase.created, j⟩ ⟨Phase.execRunning, runningJob j⟩
  | execLine (j : Job) (raw : String) :
      Step ⟨Phase.execRunning, j⟩ ⟨Phase.execRunning, processStreamLine j raw⟩
  | execFinalize (j : Job) (code : Int) (now : Nat) :
      Step ⟨Phase.execRunning, j⟩ ⟨Phase.finishedPh, directFinalizeJob j code now⟩
  | execError (j : Job) (msg : String) (now : Nat) :
      Step ⟨Phase.execRunning, j⟩ ⟨Phase.finishedPh, errorFinalizeJob j msg now⟩
  | handoffStep (j : Job) :
      Step ⟨Phase.execRunning, j⟩ ⟨Phase.monitoring, j⟩
  | journalLine (j : Job) (raw : String) :
      Step ⟨Phase.monitoring, j⟩ ⟨Phase.monitoring, processStreamLine j raw⟩
  | monitorFinalize (j : Job) (fs so : String) (now : Nat) :
      Step ⟨Phase.monitoring, j⟩ ⟨Phase.finishedPh, monitorFinalizeJob j fs so now⟩

/-- The job record `start_job` allocates, about to be driven. -/
def initState (id cmd : String) (now : Nat) : TState :=
  ⟨Phase.created, { id := id, command := cmd, created_at := now }⟩

/-- Reachability along the driving task's atomic steps. -/
def Reachable (s t : TState) : Prop := Relation.ReflTransGen Step s t

/-- A terminal job status. -/
def Terminal (st : JobStatus) : Prop :=
  st = JobStatus.success ∨ st = JobStatus.failed

/-- The transitions the specification allows: stay put, Started → Running,
or Running → terminal. -/
def ValidTransition (a b : JobStatus) : Prop :=
  a = b ∨ (a = JobStatus.started ∧ b = JobStatus.running) ∨
    (a = JobStatus.running ∧ Terminal b)

/-- Invariant tying the driving task's control position to the job
record's `status` and `finished_at` fields. -/
def Inv (s : TState) : Prop :=
  match s.phase with
  | Phase.created => s.job.status = JobStatus.started ∧ s.job.finished_at = none
  | Phase.execRunning => s.job.status = JobStatus.running ∧ s.job.finished_at = none
  | Phase.monitoring => s.job.status = JobStatus.running ∧ s.job.finished_at = none
  | Phase.finishedPh => Terminal s.job.status ∧ s.job.finished_at.isSome = true

/-! ### Subscriber interleaving model (websocket handler vs. appender)

`websocket_logs` (`main.py` lines 146–170) interleaved with the job's
single appender.  Atomic actions, delimited by the handler's only real
suspension point in this phase (`await websocket.send_text`):

* `append` — one `add_log` call by the executor/monitor; it appends to
  `logs` and puts the line on every registered queue without suspending
  (`Queue.put` on an unbounded queue never blocks);
* `sendHist` — the history loop sends `logs[idx]` and advances; the `for`
  iterates the live list by index, so lines appended during the loop are
  still picked up;
* `register` — the loop's exhaustion check, the `finished_at` check and
  `register_listener()` run in one scheduling slot with no `await`
  between them, so registration happens exactly when `idx` has reached
  the current length. -/

/-- State of one subscriber handler racing one appender: the job's log
list, whether the handler has registered its queue, the queue's contents,
the history lines sent so far, and the history index. -/
structure SubState where
  logs : List String
  registered : Bool
  queue : List String
  sent : List String
  idx : Nat
deriving DecidableEq, Repr

/-- The interleaved atomic actions. -/
inductive SubStep : SubState → SubState → Prop where
  | append (s : SubState) (line : String) :
      SubStep s { s with
        logs := s.logs ++ [line]
        queue := if s.registered then s.queue ++ [line] else s.queue }
  | sendHist (s : SubState) (h : s.idx < s.logs.length)
      (hr : s.registered = false) :
      SubStep s { s with
        sent := s.sent ++ [s.logs.get ⟨s.idx, h⟩]
        idx := s.idx + 1 }
  | register (s : SubState) (h1 : s.idx = s.logs.length)
      (hr : s.registered = false) :
      SubStep s { s with registered := true }

/-- The handler starts with the job's current logs, nothing sent, queue
not yet registered. -/
def subInit (L0 : List String) : SubState :=
  ⟨L0, false, [], [], 0⟩

/-- Reachability of a subscriber/appender interleaving. -/
def SubReachable (L0 : List String) (s : SubState) : Prop :=
  Relation.ReflTransGen SubStep (subInit L0) s

/-- Invariant of the interleaving: before registration the handler has
sent exactly a prefix of the log and the queue is untouched; from
registration on, history sent plus queued lines is exactly the log. -/
def SubInv (s : SubState) : Prop :=
  if s.registered then s.sent ++ s.queue = s.logs
  else s.sent = s.logs.take s.idx ∧ s.idx ≤ s.logs.length ∧ s.queue = []

/-! ### Specification-side verdict (for the refinement comparison) -/

/-- Modelled from the spec's verdict wording: primary success iff state
`"inactive"`, descriptor `"success"` and result code 0; else the
`"unknown"`-descriptor log-marker fallback with exit code forced to 0;
otherwise Failed with the queried result code. -/
def specVerdict (final_status : String) (exit_code : Int) (result : String)
    (logs : List String) : JobStatus × Int :=
  if final_status = "inactive" ∧ result = "success" ∧ exit_code = 0 then
    (JobStatus.success, exit_code)
  else if result = "unknown" ∧ ∃ l ∈ logs, pyContains l successMarker then
    (JobStatus.success, 0)
  else
    (JobStatus.failed, exit_code)

/-! ### Helper lemmas -/

lemma addLog_status (j : Job) (line : String) : (addLog j line).status = j.status := rfl

lemma addLog_finished (j : Job) (line : String) :
    (addLog j line).finished_at = j.finished_at := rfl

lemma addLog_exit (j : Job) (line : String) :
    (addLog j line).exit_code = j.exit_code := rfl

lemma processStreamLine_status (j : Job) (raw : String) :
    (processStreamLine j raw).status = j.status := by
  unfold processStreamLine
  by_cases h : pyStrip raw = "" <;> simp [h, addLog]

lemma processStreamLine_finished (j : Job) (raw : String) :
    (processStreamLine j raw).finished_at = j.finished_at := by
  unfold processStreamLine
  by_cases h : pyStrip raw = "" <;> simp [h, addLog]

lemma monitorVerdict_fst_terminal (fs : String) (ec : Int) (r : String)
    (logs : List String) : Terminal (monitorVerdict fs ec r logs).1 := by
  unfold monitorVerdict Terminal
  dsimp only
  split
  · simp
  · simp
    tauto

lemma directFinalizeJob_terminal (j : Job) (code : Int) (now : Nat) :
    Terminal (directFinalizeJob j code now).status := by
  unfold directFinalizeJob Terminal
  dsimp only
  split <;> simp

lemma monitorFinalizeJob_terminal (j : Job) (fs so : String) (now : Nat) :
    Terminal (monitorFinalizeJob j fs so now).status :=
  monitorVerdict_fst_terminal fs (parseShowOutput so).1 (parseShowOutput so).2 j.logs

lemma errorFinalizeJob_terminal (j : Job) (msg : String) (now : Nat) :
    Terminal (errorFinalizeJob j msg now).status :=
  Or.inr rfl

lemma inv_step {s t : TState} (hi : Inv s) (h : Step s t) : Inv t := by
  cases h with
  | setRunning j => exact ⟨rfl, hi.2⟩
  | execLine j raw =>
    exact ⟨(processStreamLine_status j raw).trans hi.1,
      (processStreamLine_finished j raw).trans hi.2⟩
  | execFinalize j code now => exact ⟨directFinalizeJob_terminal j code now, rfl⟩
  | execError j msg now => exact ⟨errorFinalizeJob_terminal j msg now, rfl⟩
  | handoffStep j => exact hi
  | journalLine j raw =>
    exact ⟨(processStreamLine_status j raw).trans hi.1,
      (processStreamLine_finished j raw).trans hi.2⟩
  | monitorFinalize j fs so now => exact ⟨monitorFinalizeJob_terminal j fs so now, rfl⟩

lemma reachable_inv {id cmd : String} {now : Nat} {s : TState}
    (h : Reachable (initState id cmd now) s) : Inv s := by
  induction h with
  | refl => exact ⟨rfl, rfl⟩
  | tail _ hstep ih => exact inv_step ih hstep

lemma step_valid {s t : TState} (hi : Inv s) (h : Step s t) :
    ValidTransition s.job.status t.job.status := by
  cases h with
  | setRunning j => exact Or.inr (Or.inl ⟨hi.1, rfl⟩)
  | execLine j raw => exact Or.inl (processStreamLine_status j raw).symm
  | execFinalize j code now =>
    exact Or.inr (Or.inr ⟨hi.1, directFinalizeJob_terminal j code now⟩)
  | execError j msg now =>
    exact Or.inr (Or.inr ⟨hi.1, errorFinalizeJob_terminal j msg now⟩)
  | handoffStep j => exact Or.inl rfl
  | journalLine j raw => exact Or.inl (processStreamLine_status j raw).symm
  | monitorFinalize j fs so now =>
    exact Or.inr (Or.inr ⟨hi.1, monitorFinalizeJob_terminal j fs so now⟩)

lemma subInv_step {s t : SubState} (hi : SubInv s) (h : SubStep s t) : SubInv t := by
  cases h with
  | append line =>
    unfold SubInv at hi ⊢
    dsimp only
    by_cases hr : s.registered = true
    · rw [if_pos hr] at hi
      rw [if_pos hr, if_pos hr, ← List.append_assoc, hi]
    · rw [if_neg hr] at hi
      rw [if_neg hr, if_neg hr]
      obtain ⟨h1, h2, h3⟩ := hi
      refine ⟨?_, ?_, h3⟩
      · rw [h1, List.take_append_eq_append_take, Nat.sub_eq_zero_of_le h2,
          List.take_zero, List.append_nil]
      · simp only [List.length_append, List.length_cons, List.length_nil]
        omega
  | sendHist h hr =>
    have hnr : ¬ s.registered = true := by simp [hr]
    unfold SubInv at hi ⊢
    dsimp only
    rw [if_neg hnr] at hi
    rw [if_neg hnr]
    obtain ⟨h1, h2, h3⟩ := hi
    refine ⟨?_, h, h3⟩
    rw [h1, ← List.take_concat_get s.logs s.idx h]
    simp [List.concat_eq_append]
  | register h1 hr =>
    have hnr : ¬ s.registered = true := by simp [hr]
    unfold SubInv at hi ⊢
    dsimp only
    rw [if_neg hnr] at hi
    rw [if_pos rfl]
    obtain ⟨hs, _, hq⟩ := hi
    rw [hs, hq, h1, List.take_length, List.append_nil]

lemma subReachable_inv {L0 : List String} {s : SubState}
    (h : SubReachable L0 s) : SubInv s := by
  induction h with
  | refl => exact ⟨rfl, Nat.zero_le _, rfl⟩
  | tail _ hstep ih => exact subInv_step ih hstep

lemma foldl_execStep_fields (raws : List String) : ∀ (j : Job) (du : Option String),
    (raws.foldl execStep (j, du)).1.status = j.status ∧
    (raws.foldl execStep (j, du)).1.finished_at = j.finished_at ∧
    (raws.foldl execStep (j, du)).1.exit_code = j.exit_code ∧
    (raws.foldl execStep (j, du)).1.logs = j.logs ++ retainedLines raws ∧
    (raws.foldl execStep (j, du)).2 = (retainedLines raws).foldl scanLine du := by
  induction raws with
  | nil => intro j du; simp [retainedLines]
  | cons raw rest ih =>
    intro j du
    simp only [List.foldl_cons, retainedLines]
    by_cases h : pyStrip raw = ""
    · simp only [execStep, h, if_pos rfl]
      exact ih j du
    · simp only [execStep, if_neg h]
      obtain ⟨h1, h2, h3, h4, h5⟩ := ih (addLog j (pyStrip raw)) (scanLine du (pyStrip raw))
      refine ⟨?_, ?_, ?_, ?_, ?_⟩
      · rw [h1, addLog_status]
      · rw [h2, addLog_finished]
      · rw [h3, addLog_exit]
      · rw [h4]
        simp [addLog]
      · rw [h5, List.foldl_cons]

lemma getLast?_cons_ne_none {α : Type} (a : α) (l : List α) :
    (a :: l).getLast? ≠ none := by
  induction l generalizing a with
  | nil => simp [List.getLast?]
  | cons b t ih => rw [List.getLast?_cons_cons]; exact ih b

lemma foldl_scanLine_eq (ls : List String) : ∀ du : Option String,
    ls.foldl scanLine du = ((ls.filterMap extractUnit).getLast?).elim du some := by
  induction ls with
  | nil => intro du; simp
  | cons d rest ih =>
    intro du
    simp only [List.foldl_cons, List.filterMap_cons]
    cases hx : extractUnit d with
    | none =>
      rw [ih]
      have : scanLine du d = du := by unfold scanLine; rw [hx]
      rw [this]
    | some u =>
      rw [ih]
      have hs : scanLine du d = some u := by unfold scanLine; rw [hx]
      rw [hs]
      cases hrest : rest.filterMap extractUnit with
      | nil => simp [hrest]
      | cons a as =>
        cases hg : (a :: as).getLast? with
        | none => exact absurd hg (getLast?_cons_ne_none a as)
        | some x =>
          dsimp only
          rw [List.getLast?_cons_cons, hg]
          rfl

lemma runProcess_du (raws : List String) (j0 : Job) :
    (raws.foldl execStep (runningJob j0, none)).2 = specDu raws := by
  rw [(foldl_execStep_fields raws (runningJob j0) none).2.2.2.2, foldl_scanLine_eq]
  unfold specDu
  cases ((retainedLines raws).filterMap extractUnit).getLast? <;> rfl

lemma dropWhile_head?_not (p : Char → Bool) :
    ∀ (l : List Char) (c : Char), (l.dropWhile p).head? = some c → p c = false := by
  intro l
  induction l with
  | nil => intro c h; cases h
  | cons a rest ih =>
    intro c h
    by_cases ha : p a
    · rw [List.dropWhile_cons_of_pos ha] at h
      exact ih c h
    · rw [List.dropWhile_cons_of_neg ha] at h
      cases h
      exact Bool.not_eq_true _ ▸ eq_false_of_ne_true ha

lemma dropWhile_decomp (p : Char → Bool) (l : List Char) :
    ∃ pre, l = pre ++ l.dropWhile p ∧ pre.all p = true :=
  ⟨l.takeWhile p, (List.takeWhile_append_dropWhile p l).symm, by
    rw [List.all_eq_true]
    intro x hx
    exact List.mem_takeWhile_imp hx⟩

lemma pyStripList_decomp (l : List Char) :
    ∃ pre post, l = pre ++ pyStripList l ++ post ∧
      pre.all isPySpace = true ∧ post.all isPySpace = true := by
  obtain ⟨pre, hpre, hpreAll⟩ := dropWhile_decomp isPySpace l
  obtain ⟨pre2, hpre2, hpre2All⟩ :=
    dropWhile_decomp isPySpace (l.dropWhile isPySpace).reverse
  refine ⟨pre, pre2.reverse, ?_, hpreAll, ?_⟩
  · have hm2 : l.dropWhile isPySpace =
        ((l.dropWhile isPySpace).reverse.dropWhile isPySpace).reverse ++ pre2.reverse := by
      have h := congrArg List.reverse hpre2
      simpa [List.reverse_append] using h
    calc l = pre ++ l.dropWhile isPySpace := hpre
      _ = pre ++ (((l.dropWhile isPySpace).reverse.dropWhile isPySpace).reverse
            ++ pre2.reverse) := by rw [← hm2]
      _ = pre ++ pyStripList l ++ pre2.reverse := by
            rw [pyStripList, List.append_assoc]
  · rw [List.all_eq_true] at hpre2All ⊢
    intro x hx
    exact hpre2All x (List.mem_reverse.mp hx)

lemma pyStripList_getLast?_not (l : List Char) (c : Char)
    (h : (pyStripList l).getLast? = some c) : isPySpace c = false := by
  rw [pyStripList, List.getLast?_reverse] at h
  exact dropWhile_head?_not isPySpace _ c h

lemma pyStripList_head?_not (l : List Char) (c : Char)
    (h : (pyStripList l).head? = some c) : isPySpace c = false := by
  rw [pyStripList, List.head?_reverse] at h
  obtain ⟨pre2, hpre2, _⟩ :=
    dropWhile_decomp isPySpace (l.dropWhile isPySpace).reverse
  have hd : (l.dropWhile isPySpace).reverse.dropWhile isPySpace ≠ [] := by
    intro hnil
    rw [hnil] at h
    cases h
  have hlast : (l.dropWhile isPySpace).reverse.getLast? = some c := by
    rw [hpre2, List.getLast?_append_of_ne_nil _ hd]
    exact h
  rw [List.getLast?_reverse] at hlast
  exact dropWhile_head?_not isPySpace _ c hlast

/-! ### Sample data for witnesses and counterexamples -/

/-- A freshly created job record. -/
def jobC : Job := { id := "j", command := "c" }

/-- The job record `_run_process` hands to the monitor in the witness run. -/
def jobCHandoff : Job :=
  { id := "j", command := "c", status := JobStatus.running,
    logs := ["Running as unit: demo.service"] }

/-- A terminal job record previously stored in the registry. -/
def oldJobSample : Job :=
  { id := "a", command := "old", status := JobStatus.failed, logs := ["x"] }

/-- A registry holding `oldJobSample` under id `"a"`. -/
def jobsSample : String → Option Job :=
  fun k => if k = "a" then some oldJobSample else none

/-! ### Claim theorems -/

/-- C1: in every reachable state of a job driven by its executor (and, after
handoff, its monitor), `finished_at` is set if and only if `status` is
Success or Failed; and every status change performed by a step of the
executor or monitor follows Started → Running → {Success | Failed} only,
with a terminal status never changed afterwards. -/
theorem jobStatus_finishedAt_invariant (id cmd : String) (now : Nat) (s : TState)
    (h : Reachable (initState id cmd now) s) :
    (s.job.finished_at.isSome = true ↔ Terminal s.job.status) ∧
    ∀ t, Step s t → ValidTransition s.job.status t.job.status := by
  have hi := reachable_inv h
  constructor
  · rcases s with ⟨ph, j⟩
    cases ph
    · obtain ⟨h1, h2⟩ := hi
      dsimp only at h1 h2
      simp [h1, h2, Terminal]
    · obtain ⟨h1, h2⟩ := hi
      dsimp only at h1 h2
      simp [h1, h2, Terminal]
    · obtain ⟨h1, h2⟩ := hi
      dsimp only at h1 h2
      simp [h1, h2, Terminal]
    · obtain ⟨h1, h2⟩ := hi
      dsimp only at h1 h2
      simp [h1, h2]
  · intro t ht
    exact step_valid hi ht

/-- Witness for C1 at the freshly created state. -/
theorem jobStatus_finishedAt_invariant_witness :
    (initState "job-1" "echo hi" 0).job.finished_at.isSome = true ↔
      Terminal (initState "job-1" "echo hi" 0).job.status :=
  (jobStatus_finishedAt_invariant "job-1" "echo hi" 0 (initState "job-1" "echo hi" 0)
    Relation.ReflTransGen.refl).1

/-- C2 counterexample: with the process exiting 0 after emitting the single
retained line `"Running as unit:"` — a line that does contain the marker —
the executor does NOT hand off (the extracted unit name is the empty
string, which is falsy), contradicting the claim that a handoff happens
whenever the exit code is 0 and some retained line contained the marker. -/
theorem handoff_claim_counterexample :
    pyStrip "Running as unit:" ≠ "" ∧
    pyContains (pyStrip "Running as unit:") detachMarker = true ∧
    isHandoff (runProcessExec jobC
      (ProcOutcome.exited ["Running as unit:"] 0) 7) = false := by
  refine ⟨by decide, by decide, by decide⟩

/-- C2 amended: the executor hands off if and only if the process exits 0
and the name extracted from the last marker-containing retained line
(the text after the first marker occurrence in that line, stripped) is
non-empty; the handed-over name is that extracted name, and on handoff the
executor leaves `exit_code` and `finished_at` untouched and `status` at
Running. -/
theorem handoff_iff_nonempty_unit (j0 : Job) (raws : List String) (code : Int)
    (now : Nat) :
    (isHandoff (runProcessExec j0 (ProcOutcome.exited raws code) now) = true ↔
      (code = 0 ∧ ∃ u, specDu raws = some u ∧ u ≠ "")) ∧
    (∀ jr u, runProcessExec j0 (ProcOutcome.exited raws code) now =
        ExecResult.handoff jr u →
      specDu raws = some u ∧ jr.exit_code = j0.exit_code ∧
        jr.finished_at = j0.finished_at ∧ jr.status = JobStatus.running) := by
  have hdu := runProcess_du raws j0
  have hf := foldl_execStep_fields raws (runningJob j0) none
  unfold runProcessExec
  dsimp only
  rw [hdu]
  cases hsd : specDu raws with
  | none =>
    constructor
    · simp [isHandoff]
    · intro jr u hcontra
      exact ExecResult.noConfusion hcontra
  | some u0 =>
    dsimp only
    by_cases hc : code = 0 ∧ u0 ≠ ""
    · rw [if_pos hc]
      constructor
      · simp only [isHandoff, true_iff]
        exact ⟨hc.1, u0, rfl, hc.2⟩
      · intro jr u heq
        injection heq with hj hu
        subst hj
        subst hu
        exact ⟨rfl, hf.2.2.1, hf.2.1, hf.1⟩
    · rw [if_neg hc]
      constructor
      · simp only [isHandoff, Bool.false_eq_true, false_iff]
        rintro ⟨hcode, u, hu, hne⟩
        injection hu with hu2
        exact hc ⟨hcode, hu2 ▸ hne⟩
      · intro jr u hcontra
        exact ExecResult.noConfusion hcontra

/-- Witness for the amended C2: a real detachment run. -/
theorem handoff_iff_nonempty_unit_witness :
    specDu ["Running as unit: demo.service"] = some "demo.service" ∧
    jobCHandoff.exit_code = jobC.exit_code ∧
    jobCHandoff.finished_at = jobC.finished_at ∧
    jobCHandoff.status = JobStatus.running :=
  (handoff_iff_nonempty_unit jobC ["Running as unit: demo.service"] 0 7).2
    jobCHandoff "demo.service" (by decide)

/-- C3: the monitor's verdict is computed exactly as the claim states:
success iff state `"inactive"`, descriptor `"success"` and result code 0;
else, if the descriptor is `"unknown"` and some accumulated log line
contains the completion marker, success with exit code forced to 0;
otherwise Failed with the queried result code as exit code. -/
theorem monitorVerdict_matches_claim (final_status : String) (exit_code : Int)
    (result : String) (logs : List String) :
    monitorVerdict final_status exit_code result logs =
      specVerdict final_status exit_code result logs := by
  unfold monitorVerdict specVerdict
  dsimp only
  by_cases h1 : final_status = "inactive" <;>
    by_cases h2 : result = "success" <;>
      by_cases h3 : exit_code = 0 <;>
        by_cases h4 : result = "unknown" <;>
          by_cases h5 : ∃ x ∈ logs, pyContains x successMarker = true <;>
            simp_all [beq_iff_eq, List.any_eq_true]
  all_goals
    have hne : ¬ ∃ x ∈ logs, pyContains x successMarker = true := by
      rintro ⟨x, hx, hpx⟩
      have h6 := h5 x hx
      rw [h6] at hpx
      cases hpx
  all_goals simp [hne]

/-- C4: on any spawn/read failure, the executor appends exactly one
synthetic log line describing the error, finalizes the job Failed with
exit code −1 and `finished_at` set, and the terminal sentinel is the last
entry of every current subscriber queue; the embedding is a total
function, mirroring that the `except` handler never re-raises. -/
theorem executor_error_finalization (j0 : Job) (raws : List String) (msg : String)
    (now : Nat) :
    ∃ j, runProcessExec j0 (ProcOutcome.raised raws msg) now = ExecResult.done j ∧
      j.status = JobStatus.failed ∧
      j.exit_code = some (-1 : Int) ∧
      j.finished_at = some now ∧
      j.logs = (j0.logs ++ retainedLines raws) ++ ["Internal Error: " ++ msg] ∧
      ∀ q ∈ j.listeners, q.getLast? = some none := by
  refine ⟨errorFinalizeJob (raws.foldl execStep (runningJob j0, none)).1 msg now,
    rfl, rfl, rfl, rfl, ?_, ?_⟩
  · have hf := (foldl_execStep_fields raws (runningJob j0) none).2.2.2.1
    simp only [errorFinalizeJob, addLog]
    rw [hf]
    simp [runningJob, List.append_assoc]
  · intro q hq
    simp only [errorFinalizeJob, addLog, List.mem_map] at hq
    obtain ⟨q2, _, rfl⟩ := hq
    simp

/-- Witness for C4 at a concrete failing run. -/
theorem executor_error_finalization_witness :
    ∃ j, runProcessExec jobC (ProcOutcome.raised ["x"] "boom") 4 =
        ExecResult.done j ∧
      j.status = JobStatus.failed ∧
      j.exit_code = some (-1 : Int) ∧
      j.finished_at = some 4 ∧
      j.logs = (jobC.logs ++ retainedLines ["x"]) ++ ["Internal Error: " ++ "boom"] ∧
      ∀ q ∈ j.listeners, q.getLast? = some none :=
  executor_error_finalization jobC ["x"] "boom" 4

/-- C5: for every interleaving of the websocket handler with the job's
appender (atomic actions being the code blocks between real suspension
points), once the handler has registered its queue, the history lines it
sent followed by the queued live lines are exactly the job's log — every
line appended after its snapshot is delivered, with no gap and no
duplicate. -/
theorem subscriber_stream_complete (L0 : List String) (s : SubState)
    (h : SubReachable L0 s) (hr : s.registered = true) :
    s.sent ++ s.queue = s.logs := by
  have hi := subReachable_inv h
  unfold SubInv at hi
  rwa [if_pos hr] at hi

/-- Witness for C5: register on an empty log, then one concurrent append. -/
theorem subscriber_stream_complete_witness :
    (⟨["a"], true, ["a"], [], 0⟩ : SubState).sent ++
      (⟨["a"], true, ["a"], [], 0⟩ : SubState).queue =
      (⟨["a"], true, ["a"], [], 0⟩ : SubState).logs :=
  subscriber_stream_complete [] ⟨["a"], true, ["a"], [], 0⟩
    (Relation.ReflTransGen.tail
      (Relation.ReflTransGen.tail Relation.ReflTransGen.refl
        (SubStep.register (subInit []) rfl rfl))
      (SubStep.append ⟨[], true, [], [], 0⟩ "a"))
    rfl

/-- C6 counterexample: a detached unit whose poll state reached `"failed"`
but whose attribute query returned descriptor `"unknown"` (single-line
output `"0"`) finalizes SUCCESS when the accumulated log contains the
completion marker — the log-marker fallback is not guarded by the poll
state, contradicting "Failed regardless of the contents of the log". -/
theorem failed_state_counterexample :
    (monitorDetachedUnit jobC "demo.service"
        ["System upgrade completed successfully."] "failed" "0" 5).status =
      JobStatus.success ∧
    (monitorDetachedUnit jobC "demo.service"
        ["System upgrade completed successfully."] "failed" "0" 5).status ≠
      JobStatus.failed := by
  refine ⟨by decide, by decide⟩

/-- C6 amended: when the polled state reaches `"failed"`, the job finalizes
Failed regardless of the descriptor and result code — unless the
descriptor is `"unknown"` and some accumulated log line contains the
completion marker, in which case it finalizes Success with exit code 0. -/
theorem failed_state_verdict (exit_code : Int) (result : String)
    (logs : List String) :
    monitorVerdict "failed" exit_code result logs =
      (if result = "unknown" ∧
          logs.any (fun log => pyContains log successMarker) = true
       then (JobStatus.success, (0 : Int))
       else (JobStatus.failed, exit_code)) := by
  unfold monitorVerdict
  dsimp only
  by_cases h4 : result = "unknown" <;>
    by_cases h5 : ∃ x ∈ logs, pyContains x successMarker = true <;>
      simp_all [beq_iff_eq, List.any_eq_true]
  all_goals
    have hne : ¬ ∃ x ∈ logs, pyContains x successMarker = true := by
      rintro ⟨x, hx, hpx⟩
      have h6 := h5 x hx
      rw [h6] at hpx
      cases hpx
  all_goals simp [hne]

/-- C7 counterexample: an attribute query that fails to run (or returns
empty output) is parsed to result code 0 and descriptor `"unknown"`, not
to −1 and `"error"` as the claim states. -/
theorem showQuery_empty_counterexample :
    parseShowOutput "" = (0, "unknown") ∧
    parseShowOutput "" ≠ ((-1 : Int), "error") := by
  refine ⟨by decide, by decide⟩

/-- C7 amended: a query run failure or empty output yields result code 0
and descriptor `"unknown"`; output whose first line is not an integer
literal yields −1 and `"error"`; a lone integer line yields that code with
descriptor `"unknown"`. -/
theorem showQuery_fallback_parse (stdout : String) :
    (pyStrip stdout = "" → parseShowOutput stdout = (0, "unknown")) ∧
    (∀ l0 rest, pySplitlines (pyStrip stdout) = l0 :: rest → pyToInt l0 = none →
      parseShowOutput stdout = ((-1 : Int), "error")) ∧
    (∀ l0 c, pySplitlines (pyStrip stdout) = [l0] → pyToInt l0 = some c →
      parseShowOutput stdout = (c, "unknown")) := by
  refine ⟨?_, ?_, ?_⟩
  · intro h
    unfold parseShowOutput
    rw [h]
    rfl
  · intro l0 rest hsplit hint
    unfold parseShowOutput
    rw [hsplit]
    dsimp only
    rw [hint]
  · intro l0 c hsplit hint
    unfold parseShowOutput
    rw [hsplit]
    dsimp only
    rw [hint]

/-- Witness for the amended C7 on the three parse shapes. -/
theorem showQuery_fallback_parse_witness :
    parseShowOutput "" = (0, "unknown") ∧
    parseShowOutput "abc" = ((-1 : Int), "error") ∧
    parseShowOutput "7" = ((7 : Int), "unknown") :=
  ⟨(showQuery_fallback_parse "").1 (by decide),
    (showQuery_fallback_parse "abc").2.1 "abc" [] (by decide) (by decide),
    (showQuery_fallback_parse "7").2.2 "7" 7 (by decide) (by decide)⟩

/-- C8 (code bug): line 57 creates the `add_log` coroutine for the
informational "Monitoring detached unit" line but never awaits it, so the
line is never appended — after a full monitor run the job's logs do not
contain it. -/
theorem monitor_info_line_missing :
    ¬ ("Monitoring detached unit: demo.service" ∈
      (monitorDetachedUnit jobC "demo.service" [] "inactive" "0\nsuccess" 3).logs) := by
  decide

/-- C9 counterexample: for the raw line `"  hello\n"` the code retains
`"hello"` — the leading whitespace is removed, although the claim says
only trailing whitespace is trimmed and leading whitespace preserved
(`pyRstrip` embodies the claim's right-only trim). -/
theorem leading_whitespace_counterexample :
    (processStreamLine jobC "  hello\n").logs = ["hello"] ∧
    pyRstrip "  hello\n" = "  hello" ∧
    ¬ ("  hello" ∈ (processStreamLine jobC "  hello\n").logs) := by
  refine ⟨by decide, by decide, by decide⟩

/-- C9 amended: the retained text is the decoded line with whitespace
stripped from BOTH ends (what is removed is whitespace only, and the
retained text has non-whitespace first and last characters), and it is
appended to the log and broadcast to every listener queue if and only if
it is non-empty after stripping. -/
theorem retained_line_stripped (j : Job) (raw : String) :
    (∃ pre post, raw.data = pre ++ (pyStrip raw).data ++ post ∧
      pre.all isPySpace = true ∧ post.all isPySpace = true) ∧
    (∀ c, (pyStrip raw).data.head? = some c → isPySpace c = false) ∧
    (∀ c, (pyStrip raw).data.getLast? = some c → isPySpace c = false) ∧
    (pyStrip raw ≠ "" →
      (processStreamLine j raw).logs = j.logs ++ [pyStrip raw] ∧
      (processStreamLine j raw).listeners =
        j.listeners.map (fun q => q ++ [some (pyStrip raw)])) ∧
    (pyStrip raw = "" → processStreamLine j raw = j) := by
  refine ⟨?_, ?_, ?_, ?_, ?_⟩
  · exact pyStripList_decomp raw.data
  · intro c hc
    exact pyStripList_head?_not raw.data c hc
  · intro c hc
    exact pyStripList_getLast?_not raw.data c hc
  · intro h
    unfold processStreamLine
    dsimp only
    rw [if_neg h]
    exact ⟨rfl, rfl⟩
  · intro h
    unfold processStreamLine
    dsimp only
    rw [if_pos h]

/-- Witness for the amended C9 on a line with leading and trailing
whitespace. -/
theorem retained_line_stripped_witness :
    (processStreamLine jobC "  hi \n").logs = jobC.logs ++ ["hi"] ∧
    (processStreamLine jobC "  hi \n").listeners =
      jobC.listeners.map (fun q => q ++ [some "hi"]) := by
  exact (retained_line_stripped jobC "  hi \n").2.2.2.1 (by decide)

/-- C10: `start_job` called with an explicit, already-present job id raises
no error (the embedding is total, as is the source) and silently replaces
the stored record: the id is returned unchanged, `get_job` afterwards
yields a fresh Started record with empty logs, and every other key is
untouched — the old record under that id is no longer reachable.  The
`jobId ≠ ""` hypothesis reflects that registry keys are never empty: an
empty explicit id is replaced by a generated UUID before storing. -/
theorem startJob_replaces_existing (jobs : String → Option Job)
    (command : List String) (jobId freshUuid : String) (now : Nat) (old : Job)
    (hne : jobId ≠ "") (_hmem : jobs jobId = some old) :
    (startJob jobs command (some jobId) freshUuid now).2 = jobId ∧
    getJob (startJob jobs command (some jobId) freshUuid now).1 jobId =
      some { id := jobId, command := joinSpace command,
             status := JobStatus.started, created_at := now,
             finished_at := none, exit_code := none, logs := [],
             listeners := [] } ∧
    ∀ k, k ≠ jobId →
      getJob (startJob jobs command (some jobId) freshUuid now).1 k = jobs k := by
  unfold startJob getJob
  dsimp only
  rw [if_neg hne]
  refine ⟨rfl, ?_, ?_⟩
  · rw [if_pos rfl]
  · intro k hk
    rw [if_neg hk]

/-- Witness for C10: replacing the stored terminal job under id `"a"`. -/
theorem startJob_replaces_existing_witness :
    (startJob jobsSample ["echo", "hi"] (some "a") "u" 3).2 = "a" ∧
    getJob (startJob jobsSample ["echo", "hi"] (some "a") "u" 3).1 "a" =
      some { id := "a", command := joinSpace ["echo", "hi"],
             status := JobStatus.started, created_at := 3,
             finished_at := none, exit_code := none, logs := [],
             listeners := [] } :=
  ⟨(startJob_replaces_existing jobsSample ["echo", "hi"] "a" "u" 3 oldJobSample
      (by decide) (by decide)).1,
    (startJob_replaces_existing jobsSample ["echo", "hi"] "a" "u" 3 oldJobSample
      (by decide) (by decide)).2.1⟩

end PinsDaemon

